import Mathlib

/-!
Shallow embedding of the BakLogMD sync engine (Rust sources under
src-tauri/src and apps/desktop/src-tauri/src) and proofs about it.

Conventions of the embedding:
* Rust `Result<T, AppError>` becomes `Except AppError T`.
* `reqwest::Error` is modelled by its three classification flags used by the
  code (`is_timeout`, `is_connect`, `is_request`) plus a message string.
* HTTP responses are modelled by their status code (a `Nat`) and a body string.
* `StatusCode`'s `Display` is modelled as the numeric code only; the canonical
  reason phrase is omitted (no claim depends on message text).
* Strings are handled at the `List Char` level where scanning is needed;
  whitespace is the ASCII whitespace class of Rust's `\s` / `char::is_whitespace`
  (the non-ASCII Unicode whitespace code points are not modelled).
-/

namespace BakLogMD

/-- ASCII whitespace, as matched by the regex class `\s` and `str::trim`. -/
def rsWs (c : Char) : Bool :=
  c = ' ' || c = '\t' || c = '\n' || c = '\r' || c = Char.ofNat 0x0B || c = Char.ofNat 0x0C

/-- Rust `str::trim` (restricted to ASCII whitespace). -/
def rustTrim (s : String) : String :=
  ⟨((s.toList.dropWhile rsWs).reverse.dropWhile rsWs).reverse⟩

/-- `app_error.rs`: the `AppError` enum.  Payload strings carry the `{0}`
details.  The Rust variant `Io` is embedded under the same name list. -/
inductive AppError where
  | AuthInvalid : AppError
  | Forbidden : AppError
  | Network : String → AppError
  | RateLimit : AppError
  | Keychain : String → AppError
  | NotFound : AppError
  | Validation : String → AppError
  | IoErr : String → AppError
  | DbErr : String → AppError
  | Unknown : String → AppError
deriving DecidableEq, Repr

/-- `app_error.rs`, `AppError::payload`: the `code` component of the uniform
error envelope. -/
def appErrorCode : AppError → String
  | .AuthInvalid => "AUTH_INVALID"
  | .Forbidden => "FORBIDDEN"
  | .Network _ => "NETWORK"
  | .RateLimit => "RATE_LIMIT"
  | .Keychain _ => "KEYCHAIN"
  | .NotFound => "NOT_FOUND"
  | .Validation _ => "UNKNOWN"
  | .IoErr _ => "UNKNOWN"
  | .DbErr _ => "UNKNOWN"
  | .Unknown _ => "UNKNOWN"

/-- `app_error.rs`, `AppError::payload`: the `recoverable` component. -/
def appErrorRecoverable : AppError → Bool
  | .AuthInvalid => true
  | .Forbidden => true
  | .Network _ => true
  | .RateLimit => true
  | .Keychain _ => true
  | .NotFound => true
  | .Validation _ => false
  | .IoErr _ => false
  | .DbErr _ => false
  | .Unknown _ => false

/-- The classification facets of a `reqwest::Error` that the code inspects. -/
structure ReqwestError where
  timeoutFlag : Bool
  connectFlag : Bool
  requestFlag : Bool
  msg : String
deriving DecidableEq, Repr

/-- `app_error.rs`: `impl From<reqwest::Error> for AppError`. -/
def reqwestToAppError (e : ReqwestError) : AppError :=
  if e.connectFlag || e.timeoutFlag || e.requestFlag then
    .Network e.msg
  else
    .Unknown e.msg

/-- An HTTP response at the level the code inspects it: status plus body. -/
structure Response where
  status : Nat
  body : String
deriving DecidableEq, Repr

/-- `reqwest::StatusCode::is_server_error`: `500..=599`. -/
def isServerError (s : Nat) : Bool := 500 ≤ s && s ≤ 599

/-- `backlog.rs`, `map_status_code`: classification of a status code.  The
match arms appear in source order; `{s}` display is modelled as the numeric
code. -/
def mapStatusCode (status : Nat) : Except AppError Unit :=
  if status = 200 then .ok ()
  else if status = 401 then .error .AuthInvalid
  else if status = 403 then .error .Forbidden
  else if status = 429 then .error .RateLimit
  else if status = 404 then .error .NotFound
  else if isServerError status then .error (.Network ("server error: " ++ toString status))
  else .error (.Unknown ("unexpected status: " ++ toString status))

/-- `backlog.rs`, `map_status`: keep the response on success, surface the
classified error otherwise. -/
def mapStatus (r : Response) : Except AppError Response :=
  match mapStatusCode r.status with
  | .ok _ => .ok r
  | .error e => .error e

/-- One transport attempt: either a response or a `reqwest` error. -/
abbrev TransportResult := Except ReqwestError Response

/-- `backlog.rs`, `get_with_retry`, loop body.  The `for attempt in
1..=max_attempts` iterator is embedded as the list of attempt numbers still to
run, so the Rust guard `attempt < max_attempts` is `!rest.isEmpty`; `wait` is
the current backoff value, doubled after each sleep.  Returns the result, the
list of sleep durations performed (in order), and whether the defensive
post-loop fallback was reached. -/
def retryLoop (transport : Nat → TransportResult) :
    Nat → List Nat → Except AppError Response × List Nat × Bool
  | _, [] => (.error (.Unknown "retry loop exhausted"), [], true)
  | wait, attempt :: rest =>
    match transport attempt with
    | .ok resp =>
      if resp.status == 429 && !rest.isEmpty then
        let rec' := retryLoop transport (wait * 2) rest
        (rec'.1, wait :: rec'.2.1, rec'.2.2)
      else
        (mapStatus resp, [], false)
    | .error e =>
      if (e.timeoutFlag || e.connectFlag) && !rest.isEmpty then
        let rec' := retryLoop transport (wait * 2) rest
        (rec'.1, wait :: rec'.2.1, rec'.2.2)
      else
        (.error (reqwestToAppError e), [], false)

/-- `backlog.rs`, `get_with_retry`: `wait = 1`, `max_attempts = 3`. -/
def getWithRetry (transport : Nat → TransportResult) :
    Except AppError Response × List Nat × Bool :=
  retryLoop transport 1 [1, 2, 3]

/-!
`markdown.rs`, `backlog_to_markdown`.  Each `Regex::replace_all` pass is
embedded as a left-to-right scanner over `List Char` with leftmost-match
semantics, driven by a fuel argument equal to the input length (every
scanner step consumes at least one character, so that fuel is always
sufficient; the `0` case is unreachable on the wrapper's inputs).
-/

/-- Does the list start with a whitespace character? -/
def firstIsWs : List Char → Bool
  | [] => false
  | c :: _ => rsWs c

/-- Replace-all pass for `(?m)^<marker>\s+` → `repl` (the three heading rules
and the bullet rule of `markdown.rs`).  `atStart` records whether the current
scan position is at offset 0 or directly after a `'\n'` in the original
string; after a match the greedy `\s+` run has been consumed, so the next
position is at a line start exactly when that run ended in `'\n'`. -/
def lineStartRule (marker repl : List Char) : Nat → Bool → List Char → List Char
  | 0, _, s => s
  | fuel + 1, atStart, s =>
    if atStart && marker.isPrefixOf s && firstIsWs (s.drop marker.length) then
      let afterMarker := s.drop marker.length
      let ws := afterMarker.takeWhile rsWs
      let rest := afterMarker.dropWhile rsWs
      repl ++ lineStartRule marker repl fuel (ws.getLast? == some '\n') rest
    else
      match s with
      | [] => []
      | c :: cs => c :: lineStartRule marker repl fuel (c == '\n') cs

/-- Occurrence test with exactly the branching of `lineStartRule`: does the
pattern `(?m)^<marker>\s+` match anywhere? -/
def lineStartHas (marker : List Char) : Nat → Bool → List Char → Bool
  | 0, _, _ => false
  | fuel + 1, atStart, s =>
    if atStart && marker.isPrefixOf s && firstIsWs (s.drop marker.length) then
      true
    else
      match s with
      | [] => false
      | c :: cs => lineStartHas marker fuel (c == '\n') cs

/-- Matching helper for `\{\{\s*(.*?)\s*\}\}` after the opening braces and the
greedy leading `\s*` have been consumed: find the shortest newline-free
capture such that its trailing maximal whitespace run is followed by `}}`
(regex backtracking order: `\s*` greedy, `(.*?)` lazy — and `}}` cannot begin
inside a whitespace run, so the trailing `\s*` is forced to the maximal run).
Returns the capture (reversed) and the remainder after `}}`. -/
def inlineFind : Nat → List Char → List Char → Option (List Char × List Char)
  | 0, _, _ => none
  | fuel + 1, acc, t =>
    let w := t.dropWhile rsWs
    if w.take 2 = ['}', '}'] then some (acc, w.drop 2)
    else
      match t with
      | [] => none
      | c :: cs => if c = '\n' then none else inlineFind fuel (c :: acc) cs

/-- Replace-all pass for the inline-code rule
`\{\{\s*(.*?)\s*\}\}` → `` `$1` `` of `markdown.rs`. -/
def inlineCodeScan : Nat → List Char → List Char
  | 0, s => s
  | fuel + 1, s =>
    match s with
    | [] => []
    | c :: cs =>
      if c == '{' && cs.head? == some '{' then
        let afterBraces := cs.tail.dropWhile rsWs
        match inlineFind (afterBraces.length + 1) [] afterBraces with
        | some (acc, rest) => '`' :: (acc.reverse ++ '`' :: inlineCodeScan fuel rest)
        | none => c :: inlineCodeScan fuel cs
      else c :: inlineCodeScan fuel cs

/-- Matching helper for `\[\[(.*?)\]\]` after the opening brackets: find the
shortest newline-free capture followed directly by `]]`. -/
def bracketFind : Nat → List Char → List Char → Option (List Char × List Char)
  | 0, _, _ => none
  | fuel + 1, acc, t =>
    if t.take 2 = [']', ']'] then some (acc, t.drop 2)
    else
      match t with
      | [] => none
      | c :: cs => if c = '\n' then none else bracketFind fuel (c :: acc) cs

/-- Replace-all pass for the bracket-link rule `\[\[(.*?)\]\]` → `$1`. -/
def bracketScan : Nat → List Char → List Char
  | 0, s => s
  | fuel + 1, s =>
    match s with
    | [] => []
    | c :: cs =>
      if c == '[' && cs.head? == some '[' then
        match bracketFind (cs.tail.length + 1) [] cs.tail with
        | some (acc, rest) => acc.reverse ++ bracketScan fuel rest
        | none => c :: bracketScan fuel cs
      else c :: bracketScan fuel cs

/-- Replace-all pass for `\{color:[^}]*\}` → `` (empty): at `{color:`, the
greedy `[^}]*` runs to the first `'}'`; a match requires that `'}'` to exist. -/
def colorOpenScan : Nat → List Char → List Char
  | 0, s => s
  | fuel + 1, s =>
    match s with
    | [] => []
    | c :: cs =>
      if ("\x7bcolor:".toList).isPrefixOf s then
        let afterOpen := s.drop 7
        let rest := afterOpen.dropWhile (· ≠ '}')
        match rest with
        | '}' :: tail => colorOpenScan fuel tail
        | _ => c :: colorOpenScan fuel cs
      else c :: colorOpenScan fuel cs

/-- Replace-all pass for a literal pattern (the `\{color\}`, `\{quote\}`,
`\{\{` and `\}\}` rules, whose replacement is empty; the patterns are all
non-empty literals). -/
def litRule (pat repl : List Char) : Nat → List Char → List Char
  | 0, s => s
  | fuel + 1, s =>
    match s with
    | [] => []
    | c :: cs =>
      if pat.isPrefixOf s then
        repl ++ litRule pat repl fuel (s.drop pat.length)
      else c :: litRule pat repl fuel cs

/-- Substring occurrence (anchored nowhere): does `pat` occur in `s`? -/
def containsSub (pat : List Char) : List Char → Bool
  | [] => pat.isEmpty
  | s@(_ :: cs) => pat.isPrefixOf s || containsSub pat cs

/-- `markdown.rs`, `backlog_to_markdown`: the ordered substitution pipeline.
Rules run in source order: headings `h1.`/`h2.`/`h3.`, bullets, inline code,
then the fallback flattening rules. -/
def backlogToMarkdown (input : String) : String :=
  let s0 := input.toList
  let s1 := lineStartRule "h1.".toList "# ".toList s0.length true s0
  let s2 := lineStartRule "h2.".toList "## ".toList s1.length true s1
  let s3 := lineStartRule "h3.".toList "### ".toList s2.length true s2
  let s4 := lineStartRule "*".toList "- ".toList s3.length true s3
  let s5 := inlineCodeScan s4.length s4
  let s6 := bracketScan s5.length s5
  let s7 := colorOpenScan s6.length s6
  let s8 := litRule "\x7bcolor\x7d".toList [] s7.length s7
  let s9 := litRule "\x7bquote\x7d".toList [] s8.length s8
  let s10 := litRule "\x7b\x7b".toList [] s9.length s9
  let s11 := litRule "\x7d\x7d".toList [] s10.length s10
  ⟨s11⟩

/-- "Contains a remaining wiki token": some substitution-rule marker of
`markdown.rs` still occurs in the string — a line-start heading or bullet
marker followed by whitespace, or one of the literal marker fragments
`{{`, `}}`, `[[`, `{color`, `{quote}`. -/
def hasWikiTokens (s : String) : Bool :=
  let l := s.toList
  lineStartHas "h1.".toList l.length true l ||
  lineStartHas "h2.".toList l.length true l ||
  lineStartHas "h3.".toList l.length true l ||
  lineStartHas "*".toList l.length true l ||
  containsSub "\x7b\x7b".toList l ||
  containsSub "\x7d\x7d".toList l ||
  containsSub "[[".toList l ||
  containsSub "\x7bcolor".toList l ||
  containsSub "\x7bquote\x7d".toList l

/-! `models.rs`: the data model records. -/

/-- `models.rs`, `Project`. -/
structure Project where
  id : Int
  project_key : String
  name : String
  synced_at : String
deriving DecidableEq, Repr

/-- `models.rs`, `IssueSummary`. -/
structure IssueSummary where
  issue_key : String
  summary : String
  updated_at : String
deriving DecidableEq, Repr

/-- `models.rs`, `IssueDetail`. -/
structure IssueDetail where
  issue_key : String
  summary : String
  description_raw : String
  description_md : String
  updated_at : String
  synced_at : String
deriving DecidableEq, Repr

/-- `backlog.rs`, `BacklogProject`: the wire shape of a project. -/
structure BacklogProject where
  id : Int
  project_key : String
  name : String
deriving DecidableEq, Repr

/-- `backlog.rs`, `BacklogIssue`: the wire shape of an issue. -/
structure BacklogIssue where
  issue_key : String
  summary : String
  description : Option String
  updated : String
deriving DecidableEq, Repr

/-- `backlog.rs`, `BacklogClient::to_detail`: derive an `IssueDetail` from the
wire shape; `description_md` is computed from `description_raw` by the
converter, `synced_at` is the current time (`now`, passed explicitly since the
embedding is pure). -/
def toDetail (issue : BacklogIssue) (now : String) : IssueDetail :=
  let raw := issue.description.getD ""
  { issue_key := issue.issue_key
    summary := issue.summary
    description_raw := raw
    description_md := backlogToMarkdown raw
    updated_at := issue.updated
    synced_at := now }

/-!
`backlog.rs`: the four remote operations at the network level.  The transport
is a function from the 1-based attempt number to that attempt's result; JSON
deserialization is an opaque parameter (`parse`).  Each operation returns its
result together with the list of backoff sleeps performed.
-/

/-- `backlog.rs`, `verify_connection`: one direct `send()` (no retry), then
status classification. -/
def verifyConnection (transport : Nat → TransportResult) :
    Except AppError Unit × List Nat :=
  match transport 1 with
  | .error e => (.error (reqwestToAppError e), [])
  | .ok r =>
    match mapStatus r with
    | .ok _ => (.ok (), [])
    | .error e => (.error e, [])

/-- `backlog.rs`, `fetch_projects`: retrying GET, then deserialize and stamp
every record's `synced_at` with the current time `now` (never from the
payload). -/
def fetchProjects (transport : Nat → TransportResult)
    (parse : String → Except AppError (List BacklogProject)) (now : String) :
    Except AppError (List Project) × List Nat :=
  match getWithRetry transport with
  | (.ok r, sleeps, _) =>
    ((parse r.body).map (fun ps =>
      ps.map fun p => { id := p.id, project_key := p.project_key, name := p.name, synced_at := now }), sleeps)
  | (.error e, sleeps, _) => (.error e, sleeps)

/-- `backlog.rs`, `fetch_issue_by_key`: retrying GET, then deserialize into
`IssueDetail` via `to_detail`. -/
def fetchIssueByKey (transport : Nat → TransportResult)
    (parse : String → Except AppError BacklogIssue) (now : String) :
    Except AppError IssueDetail × List Nat :=
  match getWithRetry transport with
  | (.ok r, sleeps, _) => ((parse r.body).map (toDetail · now), sleeps)
  | (.error e, sleeps, _) => (.error e, sleeps)

/-- `backlog.rs`, `search_issues_by_keyword`: retrying GET, then deserialize
into summaries. -/
def searchIssuesByKeyword (transport : Nat → TransportResult)
    (parse : String → Except AppError (List BacklogIssue)) :
    Except AppError (List IssueSummary) × List Nat :=
  match getWithRetry transport with
  | (.ok r, sleeps, _) =>
    ((parse r.body).map (fun items =>
      items.map fun i => { issue_key := i.issue_key, summary := i.summary, updated_at := i.updated }), sleeps)
  | (.error e, sleeps, _) => (.error e, sleeps)

/-!
`db.rs`: the cache tables are modelled as lists of rows; the SQL
`INSERT ... ON CONFLICT(<key>) DO UPDATE` is an update-if-present /
append-otherwise on the identity column.  `Utc::now()` is the explicit `now`
parameter of each upsert, computed once per call as in the source.
-/

/-- One `INSERT INTO projects ... ON CONFLICT(id) DO UPDATE` statement
execution of `db.rs`, `upsert_projects`: `project_key`, `name` come from the
payload row, `synced_at` is `now`; the payload's own `synced_at` is unused. -/
def upsertProjectRow (now : String) (rows : List Project) (p : Project) : List Project :=
  if rows.any (fun r => r.id == p.id) then
    rows.map fun r =>
      if r.id == p.id then
        { id := r.id, project_key := p.project_key, name := p.name, synced_at := now }
      else r
  else
    rows ++ [{ id := p.id, project_key := p.project_key, name := p.name, synced_at := now }]

/-- `db.rs`, `upsert_projects`: one prepared statement executed per payload
row, in order. -/
def upsertProjects (now : String) (rows : List Project) (ps : List Project) : List Project :=
  ps.foldl (upsertProjectRow now) rows

/-- `db.rs`, `upsert_issue_detail`: upsert on `issue_key`; all content columns
come from the payload, `synced_at` is `now` (the payload's `synced_at` is
unused). -/
def upsertIssueDetail (now : String) (rows : List IssueDetail) (d : IssueDetail) : List IssueDetail :=
  if rows.any (fun r => r.issue_key == d.issue_key) then
    rows.map fun r =>
      if r.issue_key == d.issue_key then
        { issue_key := r.issue_key, summary := d.summary,
          description_raw := d.description_raw, description_md := d.description_md,
          updated_at := d.updated_at, synced_at := now }
      else r
  else
    rows ++ [{ d with synced_at := now }]

/-!
`commands.rs`: credential resolution and the online-first orchestrators.
Cache/DB/network side effects are surfaced as an explicit event list; the
remote call's outcome and the local-cache contents are parameters.
-/

/-- `commands.rs`, `pick_api_key`, second half: the `loaded` `if let` and the
final `Err`. -/
def pickApiKeyLoaded : Option String → Except AppError String
  | some key =>
    if !(rustTrim key).isEmpty then .ok key
    else .error (.Keychain "API key is not configured in Keychain")
  | none => .error (.Keychain "API key is not configured in Keychain")

/-- `commands.rs`, `pick_api_key`. -/
def pickApiKey (cached loaded : Option String) : Except AppError String :=
  match cached with
  | some key =>
    if !(rustTrim key).isEmpty then .ok key
    else pickApiKeyLoaded loaded
  | none => pickApiKeyLoaded loaded

/-- `commands.rs`, `resolve_api_key`.  The guarded slot `api_key_cache` is the
`cacheSlot` argument, the keychain load result is `storeLoad`.  Returns the
result, the number of keychain queries performed, and the slot's new value.
(The mutex lock is modelled as always succeeding: the model is sequential.) -/
def resolveApiKey (cacheSlot : Option String) (storeLoad : Except AppError (Option String)) :
    Except AppError String × Nat × Option String :=
  match cacheSlot with
  | some key => (pickApiKey (some key) none, 0, cacheSlot)
  | none =>
    match storeLoad with
    | .error e => (.error e, 1, none)
    | .ok loaded =>
      match pickApiKey none loaded with
      | .error e => (.error e, 1, none)
      | .ok key => (.ok key, 1, some key)

/-- Observable side-effect steps of an orchestrated command. -/
inductive Step where
  | clientInit : Step
  | netCall : Step
  | cacheRead : Step
  | cacheWrite : Step
deriving DecidableEq, Repr

/-- The `Err(e @ AppError::Network(_)) | Err(e @ AppError::RateLimit)` match
arm shared by the three orchestrators in `commands.rs`. -/
def isNetOrRate : AppError → Bool
  | .Network _ => true
  | .RateLimit => true
  | _ => false

/-- `commands.rs`, `fetch_detail_online_first`.  `client` is the outcome of
`get_client`, `remote` the outcome of `fetch_issue_by_key`, `localDetail` the
cache row returned by `get_issue_detail_local`. -/
def fetchDetailOnlineFirst (client : Except AppError Unit)
    (remote : Except AppError IssueDetail) (localDetail : Option IssueDetail) :
    Except AppError IssueDetail × List Step :=
  match client with
  | .error e => (.error e, [.clientInit])
  | .ok _ =>
    match remote with
    | .ok detail => (.ok detail, [.clientInit, .netCall, .cacheWrite])
    | .error e =>
      if isNetOrRate e then
        match localDetail with
        | some d => (.ok d, [.clientInit, .netCall, .cacheRead])
        | none => (.error e, [.clientInit, .netCall, .cacheRead])
      else (.error e, [.clientInit, .netCall])

/-- `commands.rs`, `issues_search_by_key` (body inside `run`).  `localSummaries`
is the result of `search_issue_summaries_local`. -/
def issuesSearchByKey (client : Except AppError Unit)
    (remote : Except AppError IssueDetail) (localSummaries : List IssueSummary) :
    Except AppError (List IssueSummary) × List Step :=
  match client with
  | .error e => (.error e, [.clientInit])
  | .ok _ =>
    match remote with
    | .ok detail =>
      (.ok [{ issue_key := detail.issue_key, summary := detail.summary,
              updated_at := detail.updated_at }],
       [.clientInit, .netCall, .cacheWrite])
    | .error e =>
      if isNetOrRate e then
        (if localSummaries.isEmpty then .error e else .ok localSummaries,
         [.clientInit, .netCall, .cacheRead])
      else (.error e, [.clientInit, .netCall])

/-- `commands.rs`, `issues_search_by_keyword` (body inside `run`): the trimmed
keyword is validated before the client is built or any cache/network access
happens. -/
def issuesSearchByKeyword (keyword : String) (client : Except AppError Unit)
    (remote : Except AppError (List IssueSummary)) (localSummaries : List IssueSummary) :
    Except AppError (List IssueSummary) × List Step :=
  if (rustTrim keyword).isEmpty then
    (.error (.Validation "keyword is required"), [])
  else
    match client with
    | .error e => (.error e, [.clientInit])
    | .ok _ =>
      match remote with
      | .ok results =>
        (.ok results, [.clientInit, .netCall] ++ results.map fun _ => .cacheWrite)
      | .error e =>
        if isNetOrRate e then
          (if localSummaries.isEmpty then .error e else .ok localSummaries,
           [.clientInit, .netCall, .cacheRead])
        else (.error e, [.clientInit, .netCall])

/-! Concrete records used by witnesses and counterexamples. -/

/-- A concrete cached issue detail. -/
def dEx : IssueDetail :=
  { issue_key := "PROJ-1", summary := "Cached summary", description_raw := "h1. Raw",
    description_md := "# Raw", updated_at := "2026-01-01T00:00:00Z",
    synced_at := "2026-01-02T00:00:00Z" }

/-- A concrete cached issue summary. -/
def sEx : IssueSummary :=
  { issue_key := "PROJ-1", summary := "Cached summary", updated_at := "2026-01-01T00:00:00Z" }

/-! Claim theorems. -/

/-- C2 (amended): `map_status_code` is a total deterministic function of the
status code, with 200 ↦ success, 401 ↦ auth-invalid, 403 ↦ forbidden,
429 ↦ rate-limited, 404 ↦ not-found, every 5xx ↦ the network error kind
carrying a server-error detail (there is no separate server-error kind), and
every other code ↦ the unknown kind. -/
theorem C2_status_classification (s : Nat) :
    (mapStatusCode s = .ok () ↔ s = 200) ∧
    (s = 401 → mapStatusCode s = .error .AuthInvalid) ∧
    (s = 403 → mapStatusCode s = .error .Forbidden) ∧
    (s = 429 → mapStatusCode s = .error .RateLimit) ∧
    (s = 404 → mapStatusCode s = .error .NotFound) ∧
    (500 ≤ s → s ≤ 599 →
      mapStatusCode s = .error (.Network ("server error: " ++ toString s))) ∧
    (s ≠ 200 → s ≠ 401 → s ≠ 403 → s ≠ 429 → s ≠ 404 → ¬(500 ≤ s ∧ s ≤ 599) →
      mapStatusCode s = .error (.Unknown ("unexpected status: " ++ toString s))) := by
  refine ⟨?_, ?_, ?_, ?_, ?_, ?_, ?_⟩
  · constructor
    · intro h
      by_contra hne
      unfold mapStatusCode at h
      rw [if_neg hne] at h
      split_ifs at h
    · intro h; subst h; rfl
  · intro h; subst h; rfl
  · intro h; subst h; rfl
  · intro h; subst h; rfl
  · intro h; subst h; rfl
  · intro h1 h2
    have hsv : isServerError s = true := by
      simp only [isServerError, Bool.and_eq_true, decide_eq_true_eq]
      omega
    unfold mapStatusCode
    rw [if_neg (by omega), if_neg (by omega), if_neg (by omega), if_neg (by omega),
      if_neg (by omega), if_pos hsv]
  · intro h1 h2 h3 h4 h5 h6
    have hsv : ¬ isServerError s = true := by
      simp only [isServerError, Bool.and_eq_true, decide_eq_true_eq]
      omega
    unfold mapStatusCode
    rw [if_neg h1, if_neg h2, if_neg h3, if_neg h4, if_neg h5, if_neg hsv]

/-- C2 witness: the classification evaluated at concrete codes via the
theorem. -/
theorem C2_status_classification_witness :
    mapStatusCode 200 = .ok () ∧
    mapStatusCode 401 = .error .AuthInvalid ∧
    mapStatusCode 503 = .error (.Network "server error: 503") ∧
    mapStatusCode 302 = .error (.Unknown "unexpected status: 302") := by
  refine ⟨((C2_status_classification 200).1.mpr rfl), ?_, ?_, ?_⟩
  · exact (C2_status_classification 401).2.1 rfl
  · exact (C2_status_classification 503).2.2.2.2.2.1 (by omega) (by omega)
  · exact (C2_status_classification 302).2.2.2.2.2.2 (by omega) (by omega) (by omega)
      (by omega) (by omega) (by omega)

/-- C2 counterexample: the claim maps every 5xx code to a server-error kind,
but the code classifies 500 as the `Network` kind — the very same error kind
(envelope code `NETWORK`) that a transient transport failure converts to, so
no distinct server-error kind exists. -/
theorem C2_counterexample :
    mapStatusCode 500 = .error (.Network "server error: 500") ∧
    appErrorCode (.Network "server error: 500") =
      appErrorCode (reqwestToAppError ⟨true, false, false, "connect timed out"⟩) ∧
    appErrorCode (.Network "server error: 500") = "NETWORK" := by
  exact ⟨rfl, rfl, rfl⟩

/-- C4: a retry sequence whose transport yields 429 on attempts 1 and 2 and a
200 response on attempt 3 returns that success, after exactly two backoff
sleeps of 1 and then 2 time units. -/
theorem C4_retry_rate_limited_then_success
    (t : Nat → TransportResult) (r1 r2 r3 : Response)
    (h1 : t 1 = .ok r1) (h1s : r1.status = 429)
    (h2 : t 2 = .ok r2) (h2s : r2.status = 429)
    (h3 : t 3 = .ok r3) (h3s : r3.status = 200) :
    getWithRetry t = (.ok r3, [1, 2], false) := by
  simp [getWithRetry, retryLoop, h1, h2, h3, h1s, h2s, h3s, mapStatus, mapStatusCode]

/-- C4 witness: the retry sequence evaluated on a concrete transport trace. -/
theorem C4_retry_rate_limited_then_success_witness :
    getWithRetry (fun n => if n = 3 then .ok ⟨200, "ok"⟩ else .ok ⟨429, ""⟩) =
      (.ok ⟨200, "ok"⟩, [1, 2], false) :=
  C4_retry_rate_limited_then_success _ ⟨429, ""⟩ ⟨429, ""⟩ ⟨200, "ok"⟩
    rfl rfl rfl rfl rfl rfl

/-- The conversion of a transient (timeout or connect) transport error is the
`Network` error kind. -/
theorem reqwestToAppError_transient (e : ReqwestError)
    (h : (e.timeoutFlag || e.connectFlag) = true) :
    reqwestToAppError e = .Network e.msg := by
  unfold reqwestToAppError
  rcases Bool.or_eq_true_iff.mp h with ht | hc
  · simp [ht]
  · simp [hc]

/-- The retry loop always returns from within the loop body: with at least one
attempt remaining the defensive post-loop fallback flag is never set. -/
theorem retryLoop_no_exhaust (t : Nat → TransportResult) :
    ∀ l wait, l ≠ [] → (retryLoop t wait l).2.2 = false := by
  intro l
  induction l with
  | nil => intro _ h; exact absurd rfl h
  | cons attempt rest ih =>
    intro wait _
    rw [retryLoop]
    cases h : t attempt with
    | ok resp =>
      by_cases hc : (resp.status == 429 && !rest.isEmpty) = true
      · have hn : rest ≠ [] := by
          have := ((Bool.and_eq_true _ _).mp hc).2
          simpa [List.isEmpty_iff] using this
        simp only [hc, if_true]
        exact ih (wait * 2) hn
      · simp only [Bool.not_eq_true] at hc
        simp [hc]
    | error e =>
      by_cases hc : ((e.timeoutFlag || e.connectFlag) && !rest.isEmpty) = true
      · have hn : rest ≠ [] := by
          have := ((Bool.and_eq_true _ _).mp hc).2
          simpa [List.isEmpty_iff] using this
        simp only [hc, if_true]
        exact ih (wait * 2) hn
      · simp only [Bool.not_eq_true] at hc
        simp [hc]

/-- C5: the retry client never reaches the defensive post-loop fallback, and
when every one of the 3 attempts fails with a transient transport condition
(timeout or connect failure) it returns a terminal network error value —
never a success. -/
theorem C5_exhausted_transient_attempts (t : Nat → TransportResult) :
    (getWithRetry t).2.2 = false ∧
    ((∀ i, 1 ≤ i → i ≤ 3 →
        ∃ e, t i = .error e ∧ (e.timeoutFlag || e.connectFlag) = true) →
      ∃ d, (getWithRetry t).1 = .error (.Network d)) := by
  constructor
  · exact retryLoop_no_exhaust t [1, 2, 3] 1 (by decide)
  · intro h
    obtain ⟨e1, he1, ht1⟩ := h 1 (by decide) (by decide)
    obtain ⟨e2, he2, ht2⟩ := h 2 (by decide) (by decide)
    obtain ⟨e3, he3, ht3⟩ := h 3 (by decide) (by decide)
    refine ⟨e3.msg, ?_⟩
    simp [getWithRetry, retryLoop, he1, he2, he3, ht1, ht2, ht3,
      reqwestToAppError_transient e3 ht3]

/-- C5 witness: all three attempts time out on a concrete transport trace. -/
theorem C5_exhausted_transient_attempts_witness :
    (getWithRetry (fun _ => .error ⟨true, false, false, "timed out"⟩)).2.2 = false ∧
    ∃ d, (getWithRetry (fun _ => .error ⟨true, false, false, "timed out"⟩)).1 =
      .error (.Network d) := by
  refine ⟨(C5_exhausted_transient_attempts _).1, (C5_exhausted_transient_attempts _).2 ?_⟩
  intro i _ _
  exact ⟨⟨true, false, false, "timed out"⟩, rfl, rfl⟩

/-- C10: a keyword that is empty after trimming makes the search-by-keyword
command fail with a non-recoverable validation error immediately — no client
construction, no network call, no cache read or write (the event list is
empty). -/
theorem C10_empty_keyword_short_circuit (keyword : String)
    (client : Except AppError Unit) (remote : Except AppError (List IssueSummary))
    (localSummaries : List IssueSummary)
    (h : (rustTrim keyword).isEmpty = true) :
    issuesSearchByKeyword keyword client remote localSummaries =
      (.error (.Validation "keyword is required"), []) ∧
    appErrorRecoverable (.Validation "keyword is required") = false := by
  unfold issuesSearchByKeyword
  rw [if_pos h]
  exact ⟨rfl, rfl⟩

/-- C10 witness: a whitespace-only keyword evaluated through the theorem. -/
theorem C10_empty_keyword_short_circuit_witness :
    issuesSearchByKeyword "  \t " (.ok ()) (.ok []) [] =
      (.error (.Validation "keyword is required"), []) :=
  (C10_empty_keyword_short_circuit "  \t " (.ok ()) (.ok []) [] (by decide)).1

/-- C3: on a network or rate-limit remote failure each orchestrator returns
the cached data when the local lookup yields a match, and the original remote
error when it yields no match or an empty result set. -/
theorem C3_fallback_hit_or_original_error
    (e : AppError) (d : IssueDetail) (sums : List IssueSummary) (kw : String)
    (he : isNetOrRate e = true) (hkw : (rustTrim kw).isEmpty = false) :
    (fetchDetailOnlineFirst (.ok ()) (.error e) (some d)).1 = .ok d ∧
    (fetchDetailOnlineFirst (.ok ()) (.error e) none).1 = .error e ∧
    (sums ≠ [] → (issuesSearchByKey (.ok ()) (.error e) sums).1 = .ok sums) ∧
    (issuesSearchByKey (.ok ()) (.error e) []).1 = .error e ∧
    (sums ≠ [] → (issuesSearchByKeyword kw (.ok ()) (.error e) sums).1 = .ok sums) ∧
    (issuesSearchByKeyword kw (.ok ()) (.error e) []).1 = .error e := by
  refine ⟨?_, ?_, ?_, ?_, ?_, ?_⟩
  · simp [fetchDetailOnlineFirst, he]
  · simp [fetchDetailOnlineFirst, he]
  · intro hs
    simp [issuesSearchByKey, he, List.isEmpty_iff, hs]
  · simp [issuesSearchByKey, he]
  · intro hs
    simp [issuesSearchByKeyword, he, hkw, List.isEmpty_iff, hs]
  · simp [issuesSearchByKeyword, he, hkw]

/-- C3 witness: a concrete network failure with a cache hit and with an empty
cache. -/
theorem C3_fallback_hit_or_original_error_witness :
    (fetchDetailOnlineFirst (.ok ()) (.error (.Network "net down")) (some dEx)).1 = .ok dEx ∧
    (issuesSearchByKey (.ok ()) (.error (.Network "net down")) [sEx]).1 = .ok [sEx] ∧
    (issuesSearchByKey (.ok ()) (.error (.Network "net down")) []).1 =
      .error (.Network "net down") := by
  have h := C3_fallback_hit_or_original_error (.Network "net down") dEx [sEx] "k"
    rfl (by decide)
  exact ⟨h.1, h.2.2.1 (by decide), h.2.2.2.1⟩

/-- C1 (amended): the cache is consulted as fallback exactly when the remote
failure is of the `Network` kind — which in this code includes both transient
transport failures and 5xx server errors — or the rate-limit kind; for every
other kind (auth-invalid, forbidden, not-found, validation, keychain, io, db,
unknown) the original error is returned with no cache read. -/
theorem C1_fallback_gate (e : AppError) (dL : Option IssueDetail)
    (sums : List IssueSummary) (kw : String)
    (hkw : (rustTrim kw).isEmpty = false) :
    (isNetOrRate e = false →
      fetchDetailOnlineFirst (.ok ()) (.error e) dL = (.error e, [.clientInit, .netCall]) ∧
      issuesSearchByKey (.ok ()) (.error e) sums = (.error e, [.clientInit, .netCall]) ∧
      issuesSearchByKeyword kw (.ok ()) (.error e) sums =
        (.error e, [.clientInit, .netCall])) ∧
    (isNetOrRate e = true →
      Step.cacheRead ∈ (fetchDetailOnlineFirst (.ok ()) (.error e) dL).2 ∧
      Step.cacheRead ∈ (issuesSearchByKey (.ok ()) (.error e) sums).2 ∧
      Step.cacheRead ∈ (issuesSearchByKeyword kw (.ok ()) (.error e) sums).2) ∧
    (isNetOrRate e = true ↔ (∃ s, e = .Network s) ∨ e = .RateLimit) := by
  refine ⟨?_, ?_, ?_⟩
  · intro h
    refine ⟨?_, ?_, ?_⟩ <;>
      simp [fetchDetailOnlineFirst, issuesSearchByKey, issuesSearchByKeyword, h, hkw]
  · intro h
    refine ⟨?_, ?_, ?_⟩
    · cases dL <;> simp [fetchDetailOnlineFirst, h]
    · simp [issuesSearchByKey, h]
    · simp [issuesSearchByKeyword, h, hkw]
  · cases e <;> simp [isNetOrRate]

/-- C1 witness: an auth-invalid remote failure is returned untouched without a
cache read, even though the cache holds matching data. -/
theorem C1_fallback_gate_witness :
    fetchDetailOnlineFirst (.ok ()) (.error .AuthInvalid) (some dEx) =
      (.error .AuthInvalid, [.clientInit, .netCall]) :=
  ((C1_fallback_gate .AuthInvalid (some dEx) [] "k" (by decide)).1 rfl).1

/-- C1 counterexample: the claim says a server-error failure never triggers a
cache read, but the error produced by classifying status 500 is the `Network`
kind, so the orchestrator does read the cache and returns the cached record. -/
theorem C1_counterexample :
    mapStatusCode 500 = .error (.Network "server error: 500") ∧
    (fetchDetailOnlineFirst (.ok ()) (.error (.Network "server error: 500"))
      (some dEx)).1 = .ok dEx ∧
    Step.cacheRead ∈ (fetchDetailOnlineFirst (.ok ())
      (.error (.Network "server error: 500")) (some dEx)).2 := by
  refine ⟨rfl, rfl, ?_⟩
  simp [fetchDetailOnlineFirst, isNetOrRate]

/-- C8: with a populated credential cache slot the store is never queried and
the cached key is returned; with an empty slot the store is queried exactly
once, a successfully loaded non-blank key is written back to the slot, and a
subsequent resolution with that slot returns it with zero store queries. -/
theorem C8_credential_resolution (k ld : String)
    (store store2 : Except AppError (Option String)) :
    ((resolveApiKey (some k) store).2.1 = 0 ∧
      (resolveApiKey (some k) store).2.2 = some k) ∧
    ((rustTrim k).isEmpty = false → (resolveApiKey (some k) store).1 = .ok k) ∧
    ((resolveApiKey none store).2.1 = 1) ∧
    ((rustTrim ld).isEmpty = false →
      (resolveApiKey none (.ok (some ld))).1 = .ok ld ∧
      (resolveApiKey none (.ok (some ld))).2.2 = some ld ∧
      (resolveApiKey ((resolveApiKey none (.ok (some ld))).2.2) store2).2.1 = 0 ∧
      (resolveApiKey ((resolveApiKey none (.ok (some ld))).2.2) store2).1 = .ok ld) := by
  refine ⟨⟨rfl, rfl⟩, ?_, ?_, ?_⟩
  · intro h
    simp [resolveApiKey, pickApiKey, h]
  · cases store with
    | error e => rfl
    | ok loaded =>
      simp only [resolveApiKey]
      cases hp : pickApiKey none loaded <;> simp [hp]
  · intro h
    have hld : pickApiKeyLoaded (some ld) = .ok ld := by
      simp [pickApiKeyLoaded, h]
    refine ⟨?_, ?_, ?_, ?_⟩ <;> simp [resolveApiKey, pickApiKey, hld, h]

/-- C8 witness: concrete cached and loaded keys resolved through the
theorem. -/
theorem C8_credential_resolution_witness :
    (resolveApiKey (some "cached-key") (.ok (some "loaded-key"))).1 = .ok "cached-key" ∧
    (resolveApiKey (some "cached-key") (.ok (some "loaded-key"))).2.1 = 0 ∧
    (resolveApiKey none (.ok (some "loaded-key"))).1 = .ok "loaded-key" ∧
    (resolveApiKey none (.ok (some "loaded-key"))).2.1 = 1 := by
  have h := C8_credential_resolution "cached-key" "loaded-key"
    (.ok (some "loaded-key")) (.ok (some "loaded-key"))
  exact ⟨h.2.1 (by decide), h.1.1, (h.2.2.2 (by decide)).1, h.2.2.1⟩

/-- C6 (amended): three of the four remote operations — list projects, fetch
issue by key, search by keyword — delegate to the retrying client, so a
transient transport failure on attempt 1 is retried (one backoff sleep) and
attempt 2's success is used; `verify_connection` sends a single un-retried
request and surfaces the transient failure directly. -/
theorem C6_retry_delegation (t : Nat → TransportResult) (e : ReqwestError) (r : Response)
    (pp : String → Except AppError (List BacklogProject))
    (pi : String → Except AppError BacklogIssue)
    (ps : String → Except AppError (List BacklogIssue)) (now : String)
    (h1 : t 1 = .error e) (he : (e.timeoutFlag || e.connectFlag) = true)
    (h2 : t 2 = .ok r) (hs : r.status = 200) :
    (fetchProjects t pp now).2 = [1] ∧
    (fetchProjects t pp now).1 = (pp r.body).map (fun l => l.map fun p =>
      { id := p.id, project_key := p.project_key, name := p.name, synced_at := now }) ∧
    (fetchIssueByKey t pi now).2 = [1] ∧
    (searchIssuesByKeyword t ps).2 = [1] ∧
    verifyConnection t = (.error (.Network e.msg), []) := by
  have hret : getWithRetry t = (.ok r, [1], false) := by
    simp [getWithRetry, retryLoop, h1, h2, he, hs, mapStatus, mapStatusCode]
  refine ⟨?_, ?_, ?_, ?_, ?_⟩
  · simp [fetchProjects, hret]
  · simp [fetchProjects, hret]
  · simp [fetchIssueByKey, hret]
  · simp [searchIssuesByKeyword, hret]
  · simp [verifyConnection, h1, reqwestToAppError_transient e he]

/-- C6 witness: a concrete trace — connect failure on attempt 1, success on
attempt 2 — evaluated through the theorem. -/
theorem C6_retry_delegation_witness :
    (fetchProjects (fun n => if n = 1 then .error ⟨false, true, false, "refused"⟩
        else .ok ⟨200, "[]"⟩) (fun _ => .ok []) "T").2 = [1] ∧
    verifyConnection (fun n => if n = 1 then .error ⟨false, true, false, "refused"⟩
        else .ok ⟨200, "[]"⟩) = (.error (.Network "refused"), []) := by
  have h := C6_retry_delegation
    (fun n => if n = 1 then .error ⟨false, true, false, "refused"⟩ else .ok ⟨200, "[]"⟩)
    ⟨false, true, false, "refused"⟩ ⟨200, "[]"⟩
    (fun _ => .ok []) (fun _ => .error (.Unknown "no parse")) (fun _ => .ok []) "T"
    rfl rfl rfl rfl
  exact ⟨h.1, h.2.2.2.2⟩

/-- C6 counterexample: the claim says all four remote operations delegate to
the retrying client; on a trace whose first attempt times out and whose later
attempts would succeed, the retrying client recovers (one sleep, then the 200
response), but `verify_connection` performs no retry and returns the transient
network error with no sleeps. -/
theorem C6_counterexample :
    verifyConnection (fun n => if n = 1 then .error ⟨true, false, false, "timed out"⟩
        else .ok ⟨200, "me"⟩) = (.error (.Network "timed out"), []) ∧
    (getWithRetry (fun n => if n = 1 then .error ⟨true, false, false, "timed out"⟩
        else .ok ⟨200, "me"⟩)).1 = .ok ⟨200, "me"⟩ ∧
    (getWithRetry (fun n => if n = 1 then .error ⟨true, false, false, "timed out"⟩
        else .ok ⟨200, "me"⟩)).2.1 = [1] := by
  exact ⟨rfl, rfl, rfl⟩

/-- A row of `upsertProjectRow`'s output whose id is the upserted id carries
`synced_at = now`. -/
theorem upsertProjectRow_id_stamped (now : String) (acc : List Project) (p r : Project)
    (hr : r ∈ upsertProjectRow now acc p) (hid : r.id = p.id) : r.synced_at = now := by
  unfold upsertProjectRow at hr
  by_cases hany : acc.any (fun r' => r'.id == p.id)
  · rw [if_pos hany] at hr
    obtain ⟨r', _, hre⟩ := List.mem_map.mp hr
    by_cases hk : (r'.id == p.id) = true
    · rw [if_pos hk] at hre
      rw [← hre]
    · rw [if_neg hk] at hre
      subst hre
      exact absurd (beq_iff_eq.mpr hid) hk
  · rw [if_neg hany] at hr
    rcases List.mem_append.mp hr with hacc | hnew
    · have hf : ∀ x ∈ acc, ¬ x.id = p.id := by simpa using hany
      exact absurd hid (hf r hacc)
    · rw [List.mem_singleton.mp hnew]

/-- Every row of `upsertProjectRow`'s output is an untouched input row or has
`synced_at = now`. -/
theorem upsertProjectRow_mem (now : String) (acc : List Project) (p r : Project)
    (hr : r ∈ upsertProjectRow now acc p) : r ∈ acc ∨ r.synced_at = now := by
  unfold upsertProjectRow at hr
  by_cases hany : acc.any (fun r' => r'.id == p.id)
  · rw [if_pos hany] at hr
    obtain ⟨r', hr', hre⟩ := List.mem_map.mp hr
    by_cases hk : (r'.id == p.id) = true
    · rw [if_pos hk] at hre
      right
      rw [← hre]
    · rw [if_neg hk] at hre
      subst hre
      exact Or.inl hr'
  · rw [if_neg hany] at hr
    rcases List.mem_append.mp hr with hacc | hnew
    · exact Or.inl hacc
    · right
      rw [List.mem_singleton.mp hnew]

/-- Stamped rows stay stamped across the rest of an `upsert_projects` fold. -/
theorem upsertProjects_stamp_preserved (now : String) (k : Int) :
    ∀ (qs acc : List Project), (∀ r ∈ acc, r.id = k → r.synced_at = now) →
      ∀ r ∈ upsertProjects now acc qs, r.id = k → r.synced_at = now := by
  intro qs
  induction qs with
  | nil => intro acc hacc r hr hid; exact hacc r hr hid
  | cons q qt ih =>
    intro acc hacc r hr hid
    refine ih (upsertProjectRow now acc q) ?_ r hr hid
    intro r' hr' hid'
    rcases upsertProjectRow_mem now acc q r' hr' with hin | hst
    · by_cases hq : r'.id = q.id
      · exact upsertProjectRow_id_stamped now acc q r' hr' hq
      · rcases upsertProjectRow_mem now acc q r' hr' with hin2 | hst2
        · exact hacc r' hin2 hid'
        · exact hst2
    · exact hst

/-- `db.rs`, `upsert_projects`: every row written by the call (any output row
whose id occurs in the payload) has `synced_at = now`, the write-side clock. -/
theorem upsertProjects_stamps (now : String) :
    ∀ (qs acc : List Project), ∀ r ∈ upsertProjects now acc qs,
      (∃ p ∈ qs, p.id = r.id) → r.synced_at = now := by
  intro qs
  induction qs with
  | nil =>
    intro acc r _ hex
    obtain ⟨p, hp, _⟩ := hex
    exact absurd hp (List.not_mem_nil p)
  | cons q qt ih =>
    intro acc r hr hex
    obtain ⟨p, hp, hpid⟩ := hex
    rcases List.mem_cons.mp hp with hpq | hpt
    · subst hpq
      refine upsertProjects_stamp_preserved now p.id qt (upsertProjectRow now acc p) ?_ r hr hpid.symm
      intro r' hr' hid'
      exact upsertProjectRow_id_stamped now acc p r' hr' hid'
    · exact ih (upsertProjectRow now acc q) r hr ⟨p, hpt, hpid⟩

/-- `upsertProjectRow` never reads the payload row's own `synced_at`. -/
theorem upsertProjectRow_ignores_synced (now s : String) (acc : List Project) (p : Project) :
    upsertProjectRow now acc { p with synced_at := s } = upsertProjectRow now acc p := rfl

/-- `upsert_projects` never reads the payload rows' own `synced_at`. -/
theorem upsertProjects_ignores_synced (now s : String) :
    ∀ (qs acc : List Project),
      upsertProjects now acc (qs.map fun p => { p with synced_at := s }) =
        upsertProjects now acc qs := by
  intro qs
  induction qs with
  | nil => intro acc; rfl
  | cons q qt ih =>
    intro acc
    show upsertProjects now (upsertProjectRow now acc { q with synced_at := s }) _ = _
    rw [upsertProjectRow_ignores_synced]
    exact ih (upsertProjectRow now acc q)

/-- C9: `synced_at` stored by the cache upserts is always the writing side's
`now` — for every project row written and for the issue-detail row written —
and the upserts are insensitive to any `synced_at` value supplied in the
payload. -/
theorem C9_synced_at_write_side (now s : String) (rows : List Project)
    (prs : List Project) (rowsD : List IssueDetail) (d : IssueDetail) :
    (∀ r ∈ upsertProjects now rows prs, (∃ p ∈ prs, p.id = r.id) → r.synced_at = now) ∧
    (upsertProjects now rows (prs.map fun p => { p with synced_at := s }) =
      upsertProjects now rows prs) ∧
    (∀ r ∈ upsertIssueDetail now rowsD d, r.issue_key = d.issue_key → r.synced_at = now) ∧
    (upsertIssueDetail now rowsD { d with synced_at := s } = upsertIssueDetail now rowsD d) := by
  refine ⟨fun r hr hex => upsertProjects_stamps now prs rows r hr hex,
    upsertProjects_ignores_synced now s prs rows, ?_, rfl⟩
  intro r hr hkey
  unfold upsertIssueDetail at hr
  by_cases hany : rowsD.any (fun r' => r'.issue_key == d.issue_key)
  · rw [if_pos hany] at hr
    obtain ⟨r', _, hre⟩ := List.mem_map.mp hr
    by_cases hk : (r'.issue_key == d.issue_key) = true
    · rw [if_pos hk] at hre
      rw [← hre]
    · rw [if_neg hk] at hre
      subst hre
      exact absurd (beq_iff_eq.mpr hkey) hk
  · rw [if_neg hany] at hr
    rcases List.mem_append.mp hr with hacc | hnew
    · have hf : ∀ x ∈ rowsD, ¬ x.issue_key = d.issue_key := by simpa using hany
      exact absurd hkey (hf r hacc)
    · rw [List.mem_singleton.mp hnew]

/-- C9 witness: a concrete project whose payload claims a remote `synced_at`
is stored with the write-side time instead, and the upsert result is
unchanged when the payload's `synced_at` is altered. -/
theorem C9_synced_at_write_side_witness :
    (⟨1, "PROJ", "Name", "write-time"⟩ : Project) ∈
      upsertProjects "write-time" [] [⟨1, "PROJ", "Name", "remote-time"⟩] ∧
    (⟨1, "PROJ", "Name", "write-time"⟩ : Project).synced_at = "write-time" ∧
    upsertProjects "write-time" []
        [{ (⟨1, "PROJ", "Name", "remote-time"⟩ : Project) with synced_at := "other" }] =
      upsertProjects "write-time" [] [⟨1, "PROJ", "Name", "remote-time"⟩] := by
  have hmem : (⟨1, "PROJ", "Name", "write-time"⟩ : Project) ∈
      upsertProjects "write-time" [] [⟨1, "PROJ", "Name", "remote-time"⟩] := by decide
  have h := C9_synced_at_write_side "write-time" "other" []
    [⟨1, "PROJ", "Name", "remote-time"⟩] [] dEx
  exact ⟨hmem, h.1 _ hmem ⟨⟨1, "PROJ", "Name", "remote-time"⟩, by decide, rfl⟩, h.2.1⟩

/-- Successor-fuel unfolding of `lineStartRule`. -/
theorem lineStartRule_succ (marker repl : List Char) (n : Nat) (atStart : Bool)
    (s : List Char) :
    lineStartRule marker repl (n + 1) atStart s =
      if atStart && marker.isPrefixOf s && firstIsWs (s.drop marker.length) then
        repl ++ lineStartRule marker repl n
          (((s.drop marker.length).takeWhile rsWs).getLast? == some '\n')
          ((s.drop marker.length).dropWhile rsWs)
      else
        match s with
        | [] => []
        | c :: cs => c :: lineStartRule marker repl n (c == '\n') cs := rfl

/-- Successor-fuel unfolding of `lineStartHas`. -/
theorem lineStartHas_succ (marker : List Char) (n : Nat) (atStart : Bool)
    (s : List Char) :
    lineStartHas marker (n + 1) atStart s =
      if atStart && marker.isPrefixOf s && firstIsWs (s.drop marker.length) then true
      else
        match s with
        | [] => false
        | c :: cs => lineStartHas marker n (c == '\n') cs := rfl

/-- A line-start substitution pass is the identity when its pattern matches
nowhere. -/
theorem lineStartRule_id (marker repl : List Char) :
    ∀ fuel atStart s, lineStartHas marker fuel atStart s = false →
      lineStartRule marker repl fuel atStart s = s := by
  intro fuel
  induction fuel with
  | zero => intro _ _ _; rfl
  | succ n ih =>
    intro atStart s h
    cases hcond : (atStart && marker.isPrefixOf s && firstIsWs (s.drop marker.length)) with
    | true =>
      rw [lineStartHas_succ, if_pos hcond] at h
      exact absurd h (by simp)
    | false =>
      rw [lineStartHas_succ, if_neg (by simp [hcond])] at h
      rw [lineStartRule_succ, if_neg (by simp [hcond])]
      cases s with
      | nil => rfl
      | cons c cs =>
        have hrest : lineStartHas marker n (c == '\n') cs = false := h
        show c :: lineStartRule marker repl n (c == '\n') cs = c :: cs
        rw [ih (c == '\n') cs hrest]

/-- A literal substitution pass is the identity when its pattern occurs
nowhere. -/
theorem litRule_id (pat repl : List Char) :
    ∀ fuel s, containsSub pat s = false → litRule pat repl fuel s = s := by
  intro fuel
  induction fuel with
  | zero => intro _ _; rfl
  | succ n ih =>
    intro s h
    cases s with
    | nil => rfl
    | cons c cs =>
      rw [containsSub, Bool.or_eq_false_iff] at h
      rw [litRule, if_neg (by simp [h.1])]
      rw [ih cs h.2]

/-- The inline-code pass is the identity when `{{` occurs nowhere. -/
theorem inlineCodeScan_id :
    ∀ fuel s, containsSub "\x7b\x7b".toList s = false → inlineCodeScan fuel s = s := by
  intro fuel
  induction fuel with
  | zero => intro _ _; rfl
  | succ n ih =>
    intro s h
    cases s with
    | nil => rfl
    | cons c cs =>
      rw [containsSub, Bool.or_eq_false_iff] at h
      have hcond : (c == '{' && cs.head? == some '{') = false := by
        cases hcc : (c == '{' && cs.head? == some '{') with
        | false => rfl
        | true =>
          have hc : c = '{' ∧ cs.head? = some '{' := by
            simpa [Bool.and_eq_true, beq_iff_eq] using hcc
          cases cs with
          | nil => simp at hc
          | cons c2 cs2 =>
            obtain ⟨rfl, hc2⟩ := hc
            have : c2 = '{' := by simpa using hc2
            subst this
            simp [List.isPrefixOf] at h
      rw [inlineCodeScan, if_neg (by simp [hcond])]
      rw [ih cs h.2]

/-- The bracket-link pass is the identity when `[[` occurs nowhere. -/
theorem bracketScan_id :
    ∀ fuel s, containsSub "[[".toList s = false → bracketScan fuel s = s := by
  intro fuel
  induction fuel with
  | zero => intro _ _; rfl
  | succ n ih =>
    intro s h
    cases s with
    | nil => rfl
    | cons c cs =>
      rw [containsSub, Bool.or_eq_false_iff] at h
      have hcond : (c == '[' && cs.head? == some '[') = false := by
        cases hcc : (c == '[' && cs.head? == some '[') with
        | false => rfl
        | true =>
          have hc : c = '[' ∧ cs.head? = some '[' := by
            simpa [Bool.and_eq_true, beq_iff_eq] using hcc
          cases cs with
          | nil => simp at hc
          | cons c2 cs2 =>
            obtain ⟨rfl, hc2⟩ := hc
            have : c2 = '[' := by simpa using hc2
            subst this
            simp [List.isPrefixOf] at h
      rw [bracketScan, if_neg (by simp [hcond])]
      rw [ih cs h.2]

/-- The color-open pass is the identity when `{color:` occurs nowhere. -/
theorem colorOpenScan_id :
    ∀ fuel s, containsSub "\x7bcolor:".toList s = false → colorOpenScan fuel s = s := by
  intro fuel
  induction fuel with
  | zero => intro _ _; rfl
  | succ n ih =>
    intro s h
    cases s with
    | nil => rfl
    | cons c cs =>
      rw [containsSub, Bool.or_eq_false_iff] at h
      rw [colorOpenScan, if_neg (by rw [h.1]; decide)]
      rw [ih cs h.2]

/-- Absence of a substring implies absence of every extension of it. -/
theorem containsSub_mono (p q : List Char) (hpq : p <+: q) :
    ∀ s, containsSub p s = false → containsSub q s = false := by
  intro s
  induction s with
  | nil =>
    intro h
    cases q with
    | nil =>
      have : p = [] := List.prefix_nil.mp hpq
      subst this
      exact absurd h (by simp [containsSub])
    | cons _ _ => rfl
  | cons c cs ih =>
    intro h
    rw [containsSub, Bool.or_eq_false_iff] at h
    rw [containsSub, Bool.or_eq_false_iff]
    refine ⟨?_, ih h.2⟩
    cases hq : q.isPrefixOf (c :: cs) with
    | false => rfl
    | true =>
      have hqp : q <+: c :: cs := List.isPrefixOf_iff_prefix.mp hq
      have : p.isPrefixOf (c :: cs) = true :=
        List.isPrefixOf_iff_prefix.mpr (hpq.trans hqp)
      exact absurd this (by simp [h.1])

/-- A string with no remaining wiki tokens is a fixed point of the
converter. -/
theorem backlogToMarkdown_fixed (y : String) (h : hasWikiTokens y = false) :
    backlogToMarkdown y = y := by
  rw [hasWikiTokens] at h
  obtain ⟨h, h9⟩ := Bool.or_eq_false_iff.mp h
  obtain ⟨h, h8⟩ := Bool.or_eq_false_iff.mp h
  obtain ⟨h, h7⟩ := Bool.or_eq_false_iff.mp h
  obtain ⟨h, h6⟩ := Bool.or_eq_false_iff.mp h
  obtain ⟨h, h5⟩ := Bool.or_eq_false_iff.mp h
  obtain ⟨h, h4⟩ := Bool.or_eq_false_iff.mp h
  obtain ⟨h, h3⟩ := Bool.or_eq_false_iff.mp h
  obtain ⟨h1, h2⟩ := Bool.or_eq_false_iff.mp h
  have e1 := lineStartRule_id "h1.".toList "# ".toList y.toList.length true y.toList h1
  have e2 := lineStartRule_id "h2.".toList "## ".toList y.toList.length true y.toList h2
  have e3 := lineStartRule_id "h3.".toList "### ".toList y.toList.length true y.toList h3
  have e4 := lineStartRule_id "*".toList "- ".toList y.toList.length true y.toList h4
  have e5 := inlineCodeScan_id y.toList.length y.toList h5
  have e6 := bracketScan_id y.toList.length y.toList h7
  have e7 := colorOpenScan_id y.toList.length y.toList
    (containsSub_mono "\x7bcolor".toList "\x7bcolor:".toList ⟨[':'], rfl⟩ y.toList h8)
  have e8 := litRule_id "\x7bcolor\x7d".toList [] y.toList.length y.toList
    (containsSub_mono "\x7bcolor".toList "\x7bcolor\x7d".toList ⟨['}'], rfl⟩ y.toList h8)
  have e9 := litRule_id "\x7bquote\x7d".toList [] y.toList.length y.toList h9
  have e10 := litRule_id "\x7b\x7b".toList [] y.toList.length y.toList h5
  have e11 := litRule_id "\x7d\x7d".toList [] y.toList.length y.toList h6
  simp only [backlogToMarkdown, e1, e2, e3, e4, e5, e6, e7, e8, e9, e10, e11]
  rfl

/-- C7: the converter is idempotent on converted output with no remaining
wiki tokens — whenever the first pass's output contains no more instances of
the source markup, a second application returns it unchanged.  (Totality and
determinism hold by construction: `backlogToMarkdown` is a total function.) -/
theorem C7_idempotent_after_conversion (x : String)
    (h : hasWikiTokens (backlogToMarkdown x) = false) :
    backlogToMarkdown (backlogToMarkdown x) = backlogToMarkdown x :=
  backlogToMarkdown_fixed (backlogToMarkdown x) h

/-- C7 witness: a concrete document containing every supported construct plus
an unbalanced brace, converted once, has no remaining tokens, and a second
conversion is the identity on it. -/
theorem C7_idempotent_after_conversion_witness :
    hasWikiTokens (backlogToMarkdown
      "h1. T\n* item \x7b\x7b code \x7d\x7d [[link]] \x7bcolor:red\x7dwarn\x7bcolor\x7d \x7bquote\x7dq \x7d\x7d") = false ∧
    backlogToMarkdown (backlogToMarkdown
      "h1. T\n* item \x7b\x7b code \x7d\x7d [[link]] \x7bcolor:red\x7dwarn\x7bcolor\x7d \x7bquote\x7dq \x7d\x7d") =
      backlogToMarkdown
        "h1. T\n* item \x7b\x7b code \x7d\x7d [[link]] \x7bcolor:red\x7dwarn\x7bcolor\x7d \x7bquote\x7dq \x7d\x7d" :=
  ⟨by decide, C7_idempotent_after_conversion _ (by decide)⟩

end BakLogMD
